import Mathlib

/-!
Verification of the specification-accumulation core of `smore.apispec.core`
(`_serialize_operation`, `Path`, `APISpec`) against its natural-language
specification.

Python dictionaries are modelled as insertion-ordered association lists
(`Dict V := List (String × V)`): lookup returns the first matching entry,
and `dictInsert` models `d[k] = v` (replace the value in place when the key
is present, append otherwise), so `dictUpdate` models `d.update(e)`.
Values stored in operation and definition mappings are abstract (`V`);
Python truthiness of such a value is abstracted by a predicate `tv` where
one is needed.  Fallible methods return the unchanged-or-updated state
paired with an optional error, mirroring in-place mutation plus `raise`.
-/

set_option autoImplicit false

namespace Smore

variable {V : Type}

/-- Insertion-ordered association list modelling a Python `dict` with string keys. -/
abbrev Dict (V : Type) := List (String × V)

/-- Lookup modelling `d[k]` / `d.get(k)`: first entry whose key matches. -/
def dictGet (d : Dict V) (k : String) : Option V :=
  match d with
  | [] => none
  | kv :: rest => if kv.1 = k then some kv.2 else dictGet rest k

/-- Key-membership test modelling `k in d`. -/
def dictContains (d : Dict V) (k : String) : Bool :=
  match d with
  | [] => false
  | kv :: rest => if kv.1 = k then true else dictContains rest k

/-- Assignment `d[k] = v`: replace the value in place when the key is present,
append the pair otherwise (Python dicts keep insertion order). -/
def dictInsert (d : Dict V) (k : String) (v : V) : Dict V :=
  if dictContains d k then d.map (fun kv => if kv.1 = k then (k, v) else kv)
  else d ++ [(k, v)]

/-- `d.update(e)`: assign every entry of `e` into `d`, in `e`'s order. -/
def dictUpdate (d e : Dict V) : Dict V :=
  e.foldl (fun a kv => dictInsert a kv.1 kv.2) d

/-- The key list of a dict, in order. -/
def dictKeys (d : Dict V) : List String := d.map (fun kv => kv.1)

/-- A genuine Python dict has pairwise-distinct keys. -/
def dictNodupKeys (d : Dict V) : Prop := (dictKeys d).Nodup

instance (d : Dict V) : Decidable (dictNodupKeys d) :=
  inferInstanceAs (Decidable ((dictKeys d).Nodup))

/-- The module-level `_PATH_CORRECTIONS` mapping, applied with
`.get(key, key)` semantics, as a total function on keys. -/
def _PATH_CORRECTIONS (k : String) : String :=
  if k = "operation_id" then "operationId"
  else if k = "external_docs" then "externalDocs"
  else k

/-- `_serialize_operation`: the dict comprehension
`{_PATH_CORRECTIONS.get(key, key): val for key, val in operation.items()}`,
building a fresh dict by assigning each corrected-key entry in iteration order. -/
def _serialize_operation (operation : Dict V) : Dict V :=
  operation.foldl (fun a kv => dictInsert a (_PATH_CORRECTIONS kv.1) kv.2) []

/-- Python truthiness of an optional string (`None` and `""` are falsy). -/
def truthyStr : Option String → Bool
  | none => false
  | some s => !(s = "")

/-- `str.lower()`: lowercase each character (ASCII, as exercised here). -/
def strLower (s : String) : String := ⟨s.data.map Char.toLower⟩

/-- The two `APISpecError` conditions raised by `Path.to_dict`. -/
inductive APISpecError where
  | pathTemplateNotSpecified
  | methodNotSpecified
  deriving DecidableEq, Repr

/-- The two `PluginError` conditions raised by `APISpec.setup_plugin`. -/
inductive PluginError where
  | importFailed (path : String)
  | noSetupFunction
  deriving DecidableEq, Repr

/-- The `Path` class: a path template, an HTTP method and one operation dict. -/
structure Path (V : Type) where
  path : Option String
  method : Option String
  operation : Dict V
  deriving DecidableEq, Repr

/-- `Path.__init__(path, method, operation)`: fields stored as given, the
operation replaced by a fresh key-corrected dict
(`_serialize_operation(operation or {})`); no validation happens here. -/
def Path.init (path method : Option String) (operation : Option (Dict V)) : Path V :=
  { path := path, method := method,
    operation := _serialize_operation (operation.getD []) }

/-- `Path.to_dict`: raises when `path` or `method` is falsy, otherwise renders
`{self.path: {self.method.lower(): self.operation}}`. -/
def Path.to_dict (p : Path V) : Except APISpecError (Dict (Dict (Dict V))) :=
  if truthyStr p.path = false then .error .pathTemplateNotSpecified
  else if truthyStr p.method = false then .error .methodNotSpecified
  else .ok [(p.path.getD "", [(strLower (p.method.getD ""), p.operation)])]

/-- `Path.update(path)`: overwrite `path`/`method` when the incoming ones are
truthy, and `self.operation.update(path.operation)`. -/
def Path.update (self other : Path V) : Path V :=
  { path := if truthyStr other.path then other.path else self.path,
    method := if truthyStr other.method then other.method else self.method,
    operation := dictUpdate self.operation other.operation }

/-- A registered path helper: receives the original literal
`(path, method, operation)` arguments of `add_path` and returns a `Path`. -/
def PathHelper (V : Type) := Option String → Option String → Option (Dict V) → Path V

/-- The `APISpec` object state: accumulated definitions and paths, the set of
initialized plugin identifiers (the keys of `self._plugins`), and the two
ordered helper lists.  A definition helper receives the definition name. -/
structure APISpec (V : Type) where
  definitions : Dict (Dict V)
  paths : Dict (Dict (Dict V))
  default_content_types : List String
  plugins : List String
  definition_helpers : List (String → Dict V)
  path_helpers : List (PathHelper V)

/-- A freshly constructed `APISpec()` with no plugins and default content types. -/
def APISpec.fresh : APISpec V :=
  { definitions := [], paths := [],
    default_content_types := ["application/json"],
    plugins := [], definition_helpers := [], path_helpers := [] }

/-- The `base` entry of `add_path` after every registered path helper has been
folded in, in registration order: each helper is called with the original
literal arguments and its result merged via `Path.update`. -/
def APISpec.foldedPath (s : APISpec V) (path method : Option String)
    (operation : Option (Dict V)) : Path V :=
  s.path_helpers.foldl (fun base f => base.update (f path method operation))
    (Path.init path method operation)

/-- `APISpec.add_path`: build the base entry, fold the path helpers, render it
with `Path.to_dict` and shallow-merge the rendered dict into `self._paths`.
Returns the (unchanged on failure) state together with the raised error. -/
def APISpec.add_path (s : APISpec V) (path method : Option String)
    (operation : Option (Dict V)) : APISpec V × Option APISpecError :=
  match (s.foldedPath path method operation).to_dict with
  | .error e => (s, some e)
  | .ok d => ({ s with paths := dictUpdate s.paths d }, none)

/-- One conditional assignment of `APISpec.definition`: `if x: ret[key] = x`,
with Python truthiness of the value abstracted by `tv` (`None` is falsy). -/
def applyOptKey (tv : V → Bool) (key : String) (x : Option V) (ret : Dict V) :
    Dict V :=
  match x with
  | some p => if tv p then dictInsert ret key p else ret
  | none => ret

/-- The accumulator built by `APISpec.definition`: fold every definition helper
in registration order into an empty dict, then let the literal `properties`
and `enum` arguments (when truthy under `tv`) overwrite. -/
def APISpec.definitionRet (s : APISpec V) (tv : V → Bool) (name : String)
    (properties enum : Option V) : Dict V :=
  applyOptKey tv "enum" enum (applyOptKey tv "properties" properties
    (s.definition_helpers.foldl (fun r f => dictUpdate r (f name)) []))

/-- `APISpec.definition(name, properties, enum)`: store the accumulator at
`self._definitions[name]`. -/
def APISpec.definition (s : APISpec V) (tv : V → Bool) (name : String)
    (properties enum : Option V) : APISpec V :=
  { s with definitions :=
      dictInsert s.definitions name (s.definitionRet tv name properties enum) }

/-- A plugin unit as resolved by `__import__`: it may or may not expose a
`setup` entry point, which receives the live registry and transforms it. -/
structure PluginMod (V : Type) where
  setup : Option (APISpec V → APISpec V)

/-- Membership in the initialized-identifier list. -/
def listHas (l : List String) (p : String) : Bool :=
  match l with
  | [] => false
  | x :: rest => if x = p then true else listHas rest p

/-- Record an identifier, modelling `self._plugins[path] = mod` on the key set. -/
def listRecord (l : List String) (p : String) : List String :=
  if listHas l p then l else l ++ [p]

/-- `APISpec.setup_plugin(path)` against an import environment `env`
(modelling `__import__`): no-op when already initialized; plugin error when
resolution fails or the unit has no `setup`; otherwise run `setup` on the
registry and only then record the identifier. -/
def APISpec.setup_plugin (env : String → Option (PluginMod V)) (s : APISpec V)
    (path : String) : APISpec V × Option PluginError :=
  if listHas s.plugins path then (s, none)
  else
    match env path with
    | none => (s, some (.importFailed path))
    | some mod =>
      match mod.setup with
      | none => (s, some .noSetupFunction)
      | some f =>
        let s2 := f s
        ({ s2 with plugins := listRecord s2.plugins path }, none)

/-- The rendered document of `APISpec.to_dict`, with its two top-level keys. -/
structure SpecDict (V : Type) where
  definitions : Dict (Dict V)
  paths : Dict (Dict (Dict V))
  deriving DecidableEq

/-- `APISpec.to_dict`: the current definitions and paths mappings. -/
def APISpec.to_dict (s : APISpec V) : SpecDict V :=
  { definitions := s.definitions, paths := s.paths }

/-! ### Heap-refined model for aliasing properties

To state that `add_path` never mutates the caller-supplied operation dict, the
model is refined with an explicit store of dict objects addressed by
allocation index.  `pathObjInit` models `Path.__init__` allocating the fresh
`_serialize_operation` copy (it only reads the argument dict), `pathObjUpdate`
models `Path.update` writing only through `self.operation`'s reference, and
`add_pathH` models the entry-building and rendering part of
`APISpec.add_path`.  A well-behaved path helper (one that, per the registration
contract, returns a `Path` object, whose constructor allocates its operation
dict afresh) satisfies `HelperFrame`: it may extend the heap but neither
writes existing cells nor aliases them as its result's operation. -/

/-- A store of dict objects; a reference is an index into the store. -/
abbrev Heap (V : Type) := List (Dict V)

/-- Dereference a dict object (out-of-range reads default to the empty dict). -/
def heapRead (h : Heap V) (r : Nat) : Dict V :=
  match h, r with
  | [], _ => []
  | d :: _, 0 => d
  | _ :: rest, n + 1 => heapRead rest n

/-- Overwrite the dict object at a reference in place. -/
def heapWrite (h : Heap V) (r : Nat) (d : Dict V) : Heap V :=
  match h, r with
  | [], _ => []
  | _ :: rest, 0 => d :: rest
  | x :: rest, n + 1 => x :: heapWrite rest n d

/-- Allocate a new dict object, returning the extended heap and its reference. -/
def heapAlloc (h : Heap V) (d : Dict V) : Heap V × Nat := (h ++ [d], h.length)

/-- A `Path` object whose operation dict lives in the heap. -/
structure PathObj where
  path : Option String
  method : Option String
  opRef : Nat

/-- `Path.__init__` in the heap model: read the argument dict (if any) and
allocate a fresh dict holding its key-corrected contents. -/
def pathObjInit (h : Heap V) (p m : Option String) (opArg : Option Nat) :
    Heap V × PathObj :=
  let content : Dict V := match opArg with
    | some r => heapRead h r
    | none => []
  ((heapAlloc h (_serialize_operation content)).1,
   ⟨p, m, (heapAlloc h (_serialize_operation content)).2⟩)

/-- `Path.update` in the heap model: merge the other operation dict into the
dict object behind `self.operation`, writing only through that reference. -/
def pathObjUpdate (h : Heap V) (self other : PathObj) : Heap V × PathObj :=
  (heapWrite h self.opRef
     (dictUpdate (heapRead h self.opRef) (heapRead h other.opRef)),
   { path := if truthyStr other.path then other.path else self.path,
     method := if truthyStr other.method then other.method else self.method,
     opRef := self.opRef })

/-- A path helper in the heap model: receives the current heap and the original
literal arguments (the operation argument as a reference) and returns the
possibly extended heap together with a `Path` object. -/
def HelperH (V : Type) := Heap V → Option String → Option String → Option Nat →
  Heap V × PathObj

/-- A helper that honours the registration contract: it may allocate, but it
never modifies an existing cell, and the operation dict of the `Path` it
returns is freshly allocated (its constructor ran `_serialize_operation`). -/
def HelperFrame (f : HelperH V) : Prop :=
  ∀ (h : Heap V) (p m : Option String) (o : Option Nat),
    h.length ≤ (f h p m o).1.length ∧
    (∀ i, i < h.length → heapRead (f h p m o).1 i = heapRead h i) ∧
    h.length ≤ (f h p m o).2.opRef

/-- The folded base entry of `add_path` in the heap model. -/
def add_pathH_folded (helpers : List (HelperH V)) (h : Heap V)
    (p m : Option String) (o : Option Nat) : Heap V × PathObj :=
  helpers.foldl (fun acc f =>
    pathObjUpdate (f acc.1 p m o).1 acc.2 (f acc.1 p m o).2)
    (pathObjInit h p m o)

/-- `APISpec.add_path` in the heap model: build the base entry, fold the
helpers, and validate as `Path.to_dict` does; the final heap is returned in
either case. -/
def add_pathH (helpers : List (HelperH V)) (h : Heap V) (p m : Option String)
    (o : Option Nat) : Heap V × Option APISpecError :=
  if truthyStr (add_pathH_folded helpers h p m o).2.path = false then
    ((add_pathH_folded helpers h p m o).1, some .pathTemplateNotSpecified)
  else if truthyStr (add_pathH_folded helpers h p m o).2.method = false then
    ((add_pathH_folded helpers h p m o).1, some .methodNotSpecified)
  else ((add_pathH_folded helpers h p m o).1, none)

/-- Invariant of the helper fold: the heap may only have grown, every cell of
the original heap is intact, and the base entry's operation reference points
above the original heap. -/
def heapFrameInv (h0 : Heap V) (st : Heap V × PathObj) : Prop :=
  h0.length ≤ st.1.length ∧
  (∀ i, i < h0.length → heapRead st.1 i = heapRead h0 i) ∧
  h0.length ≤ st.2.opRef

/-! ### Association-list lemmas -/

theorem dictContains_false_get (d : Dict V) (k : String)
    (h : dictContains d k = false) : dictGet d k = none := by
  induction d with
  | nil => rfl
  | cons kv rest ih =>
    by_cases hk : kv.1 = k
    · simp [dictContains, hk] at h
    · simp only [dictContains, if_neg hk] at h
      simp [dictGet, hk, ih h]

theorem dictKeys_not_mem_get {d : Dict V} {k : String} (h : k ∉ dictKeys d) :
    dictGet d k = none := by
  induction d with
  | nil => rfl
  | cons kv rest ih =>
    simp only [dictKeys, List.map_cons, List.mem_cons] at h
    push_neg at h
    simp [dictGet, Ne.symm h.1, ih (by simpa [dictKeys] using h.2)]

theorem dictGet_append (d e : Dict V) (k : String) :
    dictGet (d ++ e) k =
      match dictGet d k with
      | some v => some v
      | none => dictGet e k := by
  induction d with
  | nil => simp [dictGet]
  | cons kv rest ih =>
    by_cases h : kv.1 = k
    · simp [dictGet, h]
    · simp [dictGet, h, ih]

theorem dictGet_mapAssign (d : Dict V) (k : String) (v : V) :
    dictGet (d.map (fun kv => if kv.1 = k then (k, v) else kv)) k =
      if dictContains d k then some v else none := by
  induction d with
  | nil => simp [dictGet, dictContains]
  | cons kv rest ih =>
    by_cases h : kv.1 = k
    · simp [dictGet, dictContains, h]
    · simp [dictGet, dictContains, h, ih]

theorem dictGet_mapAssign_ne (d : Dict V) (k k2 : String) (v : V) (hne : k2 ≠ k) :
    dictGet (d.map (fun kv => if kv.1 = k then (k, v) else kv)) k2 = dictGet d k2 := by
  induction d with
  | nil => rfl
  | cons kv rest ih =>
    by_cases h : kv.1 = k
    · simp [dictGet, h, Ne.symm hne, ih]
    · by_cases h2 : kv.1 = k2
      · simp [dictGet, h, h2, hne]
      · simp [dictGet, h, h2, ih]

theorem dictGet_insert_self (d : Dict V) (k : String) (v : V) :
    dictGet (dictInsert d k v) k = some v := by
  unfold dictInsert
  by_cases h : dictContains d k = true
  · simp [h, dictGet_mapAssign]
  · have h0 : dictContains d k = false := by simpa using h
    rw [if_neg (by simp [h0]), dictGet_append, dictContains_false_get d k h0]
    simp [dictGet]

theorem dictGet_insert_ne (d : Dict V) (k k2 : String) (v : V) (hne : k2 ≠ k) :
    dictGet (dictInsert d k v) k2 = dictGet d k2 := by
  unfold dictInsert
  by_cases h : dictContains d k = true
  · simp [h, dictGet_mapAssign_ne d k k2 v hne]
  · have h0 : dictContains d k = false := by simpa using h
    rw [if_neg (by simp [h0]), dictGet_append]
    have h1 : dictGet ([(k, v)] : Dict V) k2 = none := by
      simp [dictGet, Ne.symm hne]
    cases hd : dictGet d k2 <;> simp [hd, h1]

theorem dictUpdate_nil (d : Dict V) : dictUpdate d [] = d := rfl

theorem dictUpdate_cons (d : Dict V) (kv : String × V) (e : Dict V) :
    dictUpdate d (kv :: e) = dictUpdate (dictInsert d kv.1 kv.2) e := rfl

theorem dictGet_update (d e : Dict V) (k : String) :
    dictNodupKeys e →
      dictGet (dictUpdate d e) k =
        match dictGet e k with
        | some v => some v
        | none => dictGet d k := by
  induction e generalizing d with
  | nil => intro _; simp [dictUpdate, dictGet]
  | cons kv rest ih =>
    intro he
    have h1 : kv.1 ∉ dictKeys rest ∧ (dictKeys rest).Nodup := by
      simpa [dictNodupKeys, dictKeys, List.nodup_cons] using he
    rw [dictUpdate_cons, ih _ h1.2]
    by_cases hk : k = kv.1
    · subst hk
      rw [dictKeys_not_mem_get h1.1, dictGet_insert_self]
      simp [dictGet]
    · rw [dictGet_insert_ne d kv.1 k kv.2 hk]
      simp [dictGet, Ne.symm hk]

theorem dictContains_iff (d : Dict V) (k : String) :
    dictContains d k = true ↔ k ∈ dictKeys d := by
  induction d with
  | nil => simp [dictContains, dictKeys]
  | cons kv rest ih =>
    by_cases h : kv.1 = k
    · simp [dictContains, dictKeys, h]
    · simp [dictContains, dictKeys, h, ih, Ne.symm h]

theorem dictKeys_mapAssign (d : Dict V) (k : String) (v : V) :
    dictKeys (d.map (fun kv => if kv.1 = k then (k, v) else kv)) = dictKeys d := by
  unfold dictKeys
  rw [List.map_map]
  refine List.map_congr_left ?_
  intro kv _
  by_cases h : kv.1 = k
  · simp [Function.comp, h]
  · simp [Function.comp, h]

theorem dictKeys_insert_sub {d : Dict V} {k k2 : String} {v : V}
    (h : k2 ∈ dictKeys (dictInsert d k v)) : k2 ∈ dictKeys d ∨ k2 = k := by
  unfold dictInsert at h
  by_cases hc : dictContains d k = true
  · rw [if_pos hc, dictKeys_mapAssign] at h
    exact Or.inl h
  · rw [if_neg hc] at h
    unfold dictKeys at h
    rw [List.map_append] at h
    rcases List.mem_append.mp h with h1 | h1
    · exact Or.inl h1
    · simp at h1
      exact Or.inr h1

theorem dictNodupKeys_insert {d : Dict V} (k : String) (v : V)
    (h : dictNodupKeys d) : dictNodupKeys (dictInsert d k v) := by
  unfold dictInsert
  by_cases hc : dictContains d k = true
  · rw [if_pos hc]
    unfold dictNodupKeys
    rw [dictKeys_mapAssign]
    exact h
  · rw [if_neg hc]
    have hk : k ∉ dictKeys d := fun hm => hc ((dictContains_iff d k).mpr hm)
    unfold dictNodupKeys dictKeys at h ⊢
    rw [List.map_append]
    simp only [List.map_cons, List.map_nil]
    rw [List.nodup_append]
    refine ⟨h, List.nodup_singleton k, ?_⟩
    intro x hx hxk
    rw [List.mem_singleton] at hxk
    subst hxk
    exact hk hx

theorem corr_idem (k : String) :
    _PATH_CORRECTIONS (_PATH_CORRECTIONS k) = _PATH_CORRECTIONS k := by
  unfold _PATH_CORRECTIONS
  by_cases h1 : k = "operation_id"
  · simp [h1]
  · by_cases h2 : k = "external_docs"
    · simp [h2]
    · simp [h1, h2]

theorem serializeFold_eq (op : Dict V) :
    ∀ a : Dict V,
      (dictKeys a ++ op.map (fun kv => _PATH_CORRECTIONS kv.1)).Nodup →
      op.foldl (fun acc kv => dictInsert acc (_PATH_CORRECTIONS kv.1) kv.2) a =
        a ++ op.map (fun kv => (_PATH_CORRECTIONS kv.1, kv.2)) := by
  induction op with
  | nil => intro a _; simp
  | cons kv rest ih =>
    intro a hnd
    rw [List.map_cons] at hnd
    have hnd2 : ((_PATH_CORRECTIONS kv.1) ::
        (dictKeys a ++ rest.map (fun kv => _PATH_CORRECTIONS kv.1))).Nodup :=
      List.nodup_middle.mp hnd
    have hmema : _PATH_CORRECTIONS kv.1 ∉ dictKeys a := fun hm =>
      (List.nodup_cons.mp hnd2).1 (List.mem_append.mpr (Or.inl hm))
    have hins : dictInsert a (_PATH_CORRECTIONS kv.1) kv.2 =
        a ++ [(_PATH_CORRECTIONS kv.1, kv.2)] := by
      unfold dictInsert
      rw [if_neg (fun htrue => hmema ((dictContains_iff a _).mp htrue))]
    have hih : (dictKeys (a ++ [(_PATH_CORRECTIONS kv.1, kv.2)]) ++
        rest.map (fun kv => _PATH_CORRECTIONS kv.1)).Nodup := by
      unfold dictKeys
      rw [List.map_append]
      simpa [List.append_assoc] using hnd
    rw [List.foldl_cons, hins, ih _ hih]
    simp

theorem serialize_eq_map {op : Dict V}
    (h : (op.map (fun kv => _PATH_CORRECTIONS kv.1)).Nodup) :
    _serialize_operation op = op.map (fun kv => (_PATH_CORRECTIONS kv.1, kv.2)) := by
  have := serializeFold_eq op [] (by simpa [dictKeys] using h)
  simpa [_serialize_operation] using this

theorem dictNodupKeys_serialize (op : Dict V) :
    dictNodupKeys (_serialize_operation op) := by
  have key : ∀ a : Dict V, dictNodupKeys a →
      dictNodupKeys (op.foldl (fun acc kv =>
        dictInsert acc (_PATH_CORRECTIONS kv.1) kv.2) a) := by
    induction op with
    | nil => intro a ha; exact ha
    | cons kv rest ih =>
      intro a ha
      exact ih _ (dictNodupKeys_insert _ _ ha)
  exact key [] (by simp [dictNodupKeys, dictKeys])

theorem serialize_keys_fixed (op : Dict V) :
    ∀ a : Dict V, (∀ k2 ∈ dictKeys a, _PATH_CORRECTIONS k2 = k2) →
      ∀ k2 ∈ dictKeys (op.foldl (fun acc kv =>
          dictInsert acc (_PATH_CORRECTIONS kv.1) kv.2) a),
        _PATH_CORRECTIONS k2 = k2 := by
  induction op with
  | nil => intro a ha k2 hk2; exact ha k2 hk2
  | cons kv rest ih =>
    intro a ha k2 hk2
    refine ih _ ?_ k2 (by simpa using hk2)
    intro k3 hk3
    rcases dictKeys_insert_sub hk3 with h | h
    · exact ha k3 h
    · rw [h]
      exact corr_idem kv.1

theorem serialize_fixed {d : Dict V} (hnd : dictNodupKeys d)
    (hfix : ∀ k ∈ dictKeys d, _PATH_CORRECTIONS k = k) :
    _serialize_operation d = d := by
  have hmap : d.map (fun kv => _PATH_CORRECTIONS kv.1) = dictKeys d := by
    unfold dictKeys
    refine List.map_congr_left ?_
    intro kv hkv
    exact hfix kv.1 (List.mem_map_of_mem _ hkv)
  rw [serialize_eq_map (by rw [hmap]; exact hnd)]
  have : d.map (fun kv => (_PATH_CORRECTIONS kv.1, kv.2)) = d.map id := by
    refine List.map_congr_left ?_
    intro kv hkv
    simp [hfix kv.1 (List.mem_map_of_mem _ hkv)]
  rw [this, List.map_id]

theorem serialize_idem_all (op : Dict V) :
    _serialize_operation (_serialize_operation op) = _serialize_operation op :=
  serialize_fixed (dictNodupKeys_serialize op)
    (fun k hk => serialize_keys_fixed op [] (by simp [dictKeys]) k hk)

/-! ### Heap lemmas -/

theorem heapRead_append {h : Heap V} (e : Heap V) {i : Nat} (hi : i < h.length) :
    heapRead (h ++ e) i = heapRead h i := by
  induction h generalizing i with
  | nil => exact absurd hi (Nat.not_lt_zero i)
  | cons d rest ih =>
    cases i with
    | zero => rfl
    | succ n => exact ih (Nat.lt_of_succ_lt_succ hi)

theorem heapWrite_length (h : Heap V) (r : Nat) (d : Dict V) :
    (heapWrite h r d).length = h.length := by
  induction h generalizing r with
  | nil => rfl
  | cons x rest ih =>
    cases r with
    | zero => rfl
    | succ n => simp [heapWrite, ih]

theorem heapRead_write_ne (h : Heap V) (r i : Nat) (d : Dict V) (hne : i ≠ r) :
    heapRead (heapWrite h r d) i = heapRead h i := by
  induction h generalizing r i with
  | nil => rfl
  | cons x rest ih =>
    cases r with
    | zero =>
      cases i with
      | zero => exact absurd rfl hne
      | succ n => rfl
    | succ rn =>
      cases i with
      | zero => rfl
      | succ n => exact ih rn n (fun hh => hne (by rw [hh]))

theorem add_pathH_fold_inv (helpers : List (HelperH V)) (p m : Option String)
    (o : Option Nat) (h0 : Heap V) (hf : ∀ f ∈ helpers, HelperFrame f) :
    ∀ st : Heap V × PathObj, heapFrameInv h0 st →
      heapFrameInv h0 (helpers.foldl (fun acc f =>
        pathObjUpdate (f acc.1 p m o).1 acc.2 (f acc.1 p m o).2) st) := by
  induction helpers with
  | nil => intro st h; exact h
  | cons f rest ih =>
    intro st hst
    rw [List.foldl_cons]
    refine ih (fun g hg => hf g (List.mem_cons_of_mem f hg)) _ ?_
    obtain ⟨hlen, hread, href⟩ := hst
    obtain ⟨flen, fread, _⟩ := hf f (List.mem_cons_self f rest) st.1 p m o
    refine ⟨?_, ?_, ?_⟩
    · show h0.length ≤ (heapWrite (f st.1 p m o).1 st.2.opRef _).length
      rw [heapWrite_length]
      exact Nat.le_trans hlen flen
    · intro i hi
      show heapRead (heapWrite (f st.1 p m o).1 st.2.opRef _) i = heapRead h0 i
      rw [heapRead_write_ne _ _ _ _ (Nat.ne_of_lt (Nat.lt_of_lt_of_le hi href))]
      rw [fread i (Nat.lt_of_lt_of_le hi hlen)]
      exact hread i hi
    · exact href

/-! ### Rendering lemmas -/

theorem to_dict_error_iff (pa : Path V) :
    (∃ e, pa.to_dict = Except.error e) ↔
      (truthyStr pa.path = false ∨ truthyStr pa.method = false) := by
  unfold Path.to_dict
  by_cases h1 : truthyStr pa.path = false
  · simp [h1]
  · by_cases h2 : truthyStr pa.method = false
    · simp [h1, h2]
    · simp [h1, h2]

theorem to_dict_ok (pa : Path V) (h1 : truthyStr pa.path = true)
    (h2 : truthyStr pa.method = true) :
    pa.to_dict =
      Except.ok [(pa.path.getD "", [(strLower (pa.method.getD ""), pa.operation)])] := by
  unfold Path.to_dict
  rw [if_neg (by simp [h1]), if_neg (by simp [h2])]

/-! ### Plugin-registry lemmas -/

theorem listHas_append_self (l : List String) (p : String) :
    listHas (l ++ [p]) p = true := by
  induction l with
  | nil => simp [listHas]
  | cons x rest ih =>
    by_cases h : x = p
    · simp [listHas, h]
    · simp [listHas, h, ih]

theorem listHas_record (l : List String) (p : String) :
    listHas (listRecord l p) p = true := by
  unfold listRecord
  by_cases h : listHas l p = true
  · rw [if_pos h]; exact h
  · rw [if_neg h]; exact listHas_append_self l p

theorem setup_plugin_mem_noop (env : String → Option (PluginMod V))
    (s : APISpec V) (p : String) (hmem : listHas s.plugins p = true) :
    APISpec.setup_plugin env s p = (s, none) := by
  unfold APISpec.setup_plugin
  rw [if_pos hmem]

theorem setup_plugin_success_mem (env : String → Option (PluginMod V))
    (s : APISpec V) (p : String) (h : (APISpec.setup_plugin env s p).2 = none) :
    listHas (APISpec.setup_plugin env s p).1.plugins p = true := by
  unfold APISpec.setup_plugin at h ⊢
  by_cases h0 : listHas s.plugins p = true
  · rw [if_pos h0]
    exact h0
  · rw [if_neg h0] at h ⊢
    rcases henv : env p with _ | mod
    · simp only [henv] at h
      exact Option.noConfusion h
    · simp only [henv] at h ⊢
      rcases hsu : mod.setup with _ | f
      · simp only [hsu] at h
        exact Option.noConfusion h
      · simp only [hsu]
        exact listHas_record _ _

/-! ### Claim theorems -/

/-- C1 counterexample: two successful `add_path` calls for the same path
template with different methods do not accumulate; after `GET` then `POST` on
`"/pet"`, the path's method-map holds only the `"post"` entry and the `"get"`
entry is gone, because `self._paths.update` replaces the whole value under the
path key. -/
theorem add_path_two_methods_cex :
    dictGet ((((APISpec.fresh (V := Nat)).add_path (some "/pet") (some "GET")
        none).1).add_path (some "/pet") (some "POST") none).1.paths "/pet" =
      some [("post", [])] ∧
    dictGet ((dictGet ((((APISpec.fresh (V := Nat)).add_path (some "/pet")
        (some "GET") none).1).add_path (some "/pet") (some "POST")
        none).1.paths "/pet").getD []) "get" = none := by
  decide

/-- C1 (amended): whenever an `add_path` call succeeds, the registry's `paths`
mapping afterwards maps that call's rendered path template to exactly that
call's singleton method-map — the second call's method-map replaces (rather
than merges into) any existing method-map under the same path-template key. -/
theorem add_path_overwrites_path_entry {V : Type} (s : APISpec V)
    (p m : Option String) (o : Option (Dict V))
    (h1 : truthyStr (s.foldedPath p m o).path = true)
    (h2 : truthyStr (s.foldedPath p m o).method = true) :
    (s.add_path p m o).2 = none ∧
    dictGet (s.add_path p m o).1.paths ((s.foldedPath p m o).path.getD "") =
      some [(strLower ((s.foldedPath p m o).method.getD ""),
             (s.foldedPath p m o).operation)] := by
  unfold APISpec.add_path
  simp only [to_dict_ok _ h1 h2]
  refine ⟨trivial, ?_⟩
  show dictGet (dictUpdate s.paths [_]) _ = _
  rw [dictUpdate_cons, dictUpdate_nil, dictGet_insert_self]

/-- Witness for the amended C1: after `GET` then `POST` on `"/pet"` the path
key holds exactly the `POST` entry. -/
theorem add_path_overwrites_path_entry_witness :
    dictGet ((((APISpec.fresh (V := Nat)).add_path (some "/pet") (some "GET")
        none).1).add_path (some "/pet") (some "POST") none).1.paths "/pet" =
      some [("post", [])] := by
  have h := (add_path_overwrites_path_entry
    (((APISpec.fresh (V := Nat)).add_path (some "/pet") (some "GET") none).1)
    (some "/pet") (some "POST") none (by decide) (by decide)).2
  revert h
  decide

/-- C2: when `add_path` fails with the specification error, the registry's
`paths` mapping is exactly what it was before the call — `add_path` does not
mutate `paths` until rendering succeeds. -/
theorem add_path_error_leaves_paths {V : Type} (s : APISpec V)
    (p m : Option String) (o : Option (Dict V)) (e : APISpecError)
    (h : (s.add_path p m o).2 = some e) :
    (s.add_path p m o).1.paths = s.paths := by
  unfold APISpec.add_path at h ⊢
  rcases hd : (s.foldedPath p m o).to_dict with e2 | d
  · simp only [hd]
  · simp only [hd] at h
    exact Option.noConfusion h

/-- Witness for C2: a fresh registry, `path=None`, no helpers. -/
theorem add_path_error_leaves_paths_witness :
    ((APISpec.fresh (V := Nat)).add_path none none none).2 =
      some APISpecError.pathTemplateNotSpecified ∧
    ((APISpec.fresh (V := Nat)).add_path none none none).1.paths =
      (APISpec.fresh (V := Nat)).paths :=
  ⟨rfl, add_path_error_leaves_paths (APISpec.fresh (V := Nat)) none none none
    APISpecError.pathTemplateNotSpecified rfl⟩

/-- C3: on a fresh registry with no helpers, for truthy `path` and `method`
strings and any operation mapping, `add_path` succeeds and
`to_dict()["paths"]` is exactly the singleton
`{path: {method.lower(): operation-with-keys-corrected}}`. -/
theorem add_path_no_helpers_renders {V : Type} (p m : String) (op : Dict V)
    (hp : p ≠ "") (hm : m ≠ "") :
    ((APISpec.fresh (V := V)).add_path (some p) (some m) (some op)).2 = none ∧
    (((APISpec.fresh (V := V)).add_path (some p) (some m)
        (some op)).1.to_dict).paths =
      [(p, [(strLower m, _serialize_operation op)])] := by
  unfold APISpec.add_path
  have h1 : truthyStr ((APISpec.fresh (V := V)).foldedPath (some p) (some m)
      (some op)).path = true := by
    simp [APISpec.foldedPath, APISpec.fresh, Path.init, truthyStr, hp]
  have h2 : truthyStr ((APISpec.fresh (V := V)).foldedPath (some p) (some m)
      (some op)).method = true := by
    simp [APISpec.foldedPath, APISpec.fresh, Path.init, truthyStr, hm]
  simp only [to_dict_ok _ h1 h2]
  exact ⟨trivial, rfl⟩

/-- Witness for C3 at `"/pet"`, `"GET"`, an operation with a snake_case key. -/
theorem add_path_no_helpers_renders_witness :
    (((APISpec.fresh (V := Nat)).add_path (some "/pet") (some "GET")
        (some [("operation_id", 7)])).1.to_dict).paths =
      [("/pet", [("get", [("operationId", 7)])])] := by
  have h := (add_path_no_helpers_renders "/pet" "GET"
    [("operation_id", (7 : Nat))] (by decide) (by decide)).2
  rw [show strLower "GET" = "get" from by decide,
    show _serialize_operation [("operation_id", (7 : Nat))] = [("operationId", 7)]
      from by decide] at h
  exact h

/-- C4 counterexample: when an operation mapping contains both `operation_id`
and `operationId`, the correction is not a pure rename — the value carried by
`operation_id` is dropped from the result entirely, so the claim fails as
stated for every operation mapping. -/
theorem serialize_collision_cex :
    _serialize_operation [("operation_id", (1 : Nat)), ("operationId", 2)] =
      [("operationId", 2)] ∧
    ¬ (1 ∈ (_serialize_operation [("operation_id", (1 : Nat)),
        ("operationId", 2)]).map (fun kv => kv.2)) := by
  decide

/-- C4 (amended): the correction table renames exactly `operation_id` to
`operationId` and `external_docs` to `externalDocs` and fixes every other key;
provided no two keys of the mapping collide after correction, the correction
is the entry-wise key rename (orders and values preserved); and the correction
is idempotent on every mapping. -/
theorem serialize_correction_spec :
    (_PATH_CORRECTIONS "operation_id" = "operationId") ∧
    (_PATH_CORRECTIONS "external_docs" = "externalDocs") ∧
    (∀ k : String, k ≠ "operation_id" → k ≠ "external_docs" →
      _PATH_CORRECTIONS k = k) ∧
    (∀ (V : Type) (op : Dict V),
      (op.map (fun kv => _PATH_CORRECTIONS kv.1)).Nodup →
      _serialize_operation op = op.map (fun kv => (_PATH_CORRECTIONS kv.1, kv.2))) ∧
    (∀ (V : Type) (op : Dict V),
      _serialize_operation (_serialize_operation op) = _serialize_operation op) := by
  refine ⟨by decide, by decide, ?_, ?_, ?_⟩
  · intro k hk1 hk2
    unfold _PATH_CORRECTIONS
    rw [if_neg hk1, if_neg hk2]
  · intro W op h
    exact serialize_eq_map h
  · intro W op
    exact serialize_idem_all op

/-- Witness for C4: a mapping with one snake_case key and one other key. -/
theorem serialize_correction_spec_witness :
    _PATH_CORRECTIONS "summary" = "summary" ∧
    _serialize_operation [("operation_id", (5 : Nat)), ("summary", 7)] =
      [("operationId", 5), ("summary", 7)] := by
  refine ⟨serialize_correction_spec.2.2.1 "summary" (by decide) (by decide), ?_⟩
  have h := serialize_correction_spec.2.2.2.1 Nat
    [("operation_id", (5 : Nat)), ("summary", 7)] (by decide)
  revert h
  decide

/-- C5: rendering a path entry raises the specification error exactly when its
path or its method is falsy at render time; `add_path` raises exactly when the
helper-folded entry still has a falsy path or method; and construction
performs no validation — `Path.__init__` always succeeds and stores the given
(possibly falsy) fields. -/
theorem render_validation_spec :
    (∀ (V : Type) (pa : Path V),
      (∃ e, pa.to_dict = Except.error e) ↔
        (truthyStr pa.path = false ∨ truthyStr pa.method = false)) ∧
    (∀ (V : Type) (s : APISpec V) (p m : Option String) (o : Option (Dict V)),
      (∃ e, (s.add_path p m o).2 = some e) ↔
        (truthyStr (s.foldedPath p m o).path = false ∨
         truthyStr (s.foldedPath p m o).method = false)) ∧
    (∀ (V : Type) (p m : Option String) (o : Option (Dict V)),
      (Path.init p m o).path = p ∧ (Path.init p m o).method = m ∧
      (Path.init p m o).operation = _serialize_operation (o.getD [])) := by
  refine ⟨fun W pa => to_dict_error_iff pa, ?_, fun W p m o => ⟨rfl, rfl, rfl⟩⟩
  intro W s p m o
  unfold APISpec.add_path
  rcases hd : (s.foldedPath p m o).to_dict with e | d
  · simp only [hd]
    constructor
    · intro _
      exact (to_dict_error_iff _).mp ⟨e, hd⟩
    · intro _
      exact ⟨e, rfl⟩
  · simp only [hd]
    constructor
    · rintro ⟨e2, he2⟩
      exact Option.noConfusion he2
    · intro hor
      rcases (to_dict_error_iff _).mpr hor with ⟨e2, he2⟩
      rw [hd] at he2
      exact Except.noConfusion he2

/-- C6: `Path.update` overwrites `path` exactly when the incoming path is
truthy, likewise `method`; the incoming operation shallow-merges in with its
value winning on every conflicting key; and updating with an identity entry
(falsy path and method, empty operation) leaves the entry unchanged. -/
theorem path_update_spec :
    (∀ (V : Type) (a b : Path V),
      (a.update b).path = (if truthyStr b.path = true then b.path else a.path) ∧
      (a.update b).method =
        (if truthyStr b.method = true then b.method else a.method)) ∧
    (∀ (V : Type) (a b : Path V), dictNodupKeys b.operation →
      ∀ k, dictGet (a.update b).operation k =
        match dictGet b.operation k with
        | some v => some v
        | none => dictGet a.operation k) ∧
    (∀ (V : Type) (a : Path V), a.update (Path.init none none none) = a) := by
  refine ⟨fun W a b => ⟨rfl, rfl⟩, ?_, ?_⟩
  · intro W a b hb k
    exact dictGet_update a.operation b.operation k hb
  · intro W a
    rfl

/-- Witness for C6 at concrete entries with a conflicting key `"x"`. -/
theorem path_update_spec_witness :
    dictGet ((Path.init (some "/a") (some "get")
        (some [("x", (1 : Nat))])).update
      (Path.init none none (some [("x", 2), ("y", 3)]))).operation "x" =
      some 2 := by
  have h := path_update_spec.2.1 Nat
    (Path.init (some "/a") (some "get") (some [("x", (1 : Nat))]))
    (Path.init none none (some [("x", 2), ("y", 3)])) (by decide) "x"
  revert h
  decide

theorem applyOptKey_self (tv : V → Bool) (key : String) (p : V) (ret : Dict V)
    (htv : tv p = true) :
    applyOptKey tv key (some p) ret = dictInsert ret key p := by
  simp only [applyOptKey]
  rw [if_pos htv]

theorem dictGet_applyOptKey_other (tv : V → Bool) (key k2 : String)
    (x : Option V) (ret : Dict V) (hne : k2 ≠ key) :
    dictGet (applyOptKey tv key x ret) k2 = dictGet ret k2 := by
  cases x with
  | none => rfl
  | some p =>
    simp only [applyOptKey]
    by_cases h : tv p = true
    · rw [if_pos h, dictGet_insert_ne _ _ _ _ hne]
    · rw [if_neg h]

/-- C7: `definition` stores the helper-fold accumulator at
`definitions[name]`, overwriting any prior entry under that name and touching
no other name; a truthy literal `properties` argument ends up at the
accumulator's `"properties"` key — overwriting any helper-provided value —
and likewise `enum`. -/
theorem definition_spec {V : Type} (s : APISpec V) (tv : V → Bool)
    (name : String) (properties enum : Option V) :
    (dictGet (s.definition tv name properties enum).definitions name =
      some (s.definitionRet tv name properties enum)) ∧
    (∀ n2, n2 ≠ name →
      dictGet (s.definition tv name properties enum).definitions n2 =
        dictGet s.definitions n2) ∧
    (∀ p, properties = some p → tv p = true →
      dictGet (s.definitionRet tv name properties enum) "properties" = some p) ∧
    (∀ e2, enum = some e2 → tv e2 = true →
      dictGet (s.definitionRet tv name properties enum) "enum" = some e2) := by
  refine ⟨dictGet_insert_self _ _ _,
    fun n2 hne => dictGet_insert_ne _ _ _ _ hne, ?_, ?_⟩
  · intro p hp htv
    subst hp
    unfold APISpec.definitionRet
    rw [dictGet_applyOptKey_other _ _ _ _ _ (by decide),
      applyOptKey_self _ _ _ _ htv, dictGet_insert_self]
  · intro e2 he htv
    subst he
    unfold APISpec.definitionRet
    rw [applyOptKey_self _ _ _ _ htv, dictGet_insert_self]

/-- Witness for C7: one registered definition helper supplies a `"properties"`
value, and the truthy literal argument overwrites it. -/
theorem definition_spec_witness :
    dictGet (({ APISpec.fresh with definition_helpers :=
        [fun _ => [("properties", (0 : Nat)), ("type", 3)]] } :
          APISpec Nat).definitionRet
      (fun n => !(n = 0)) "Pet" (some 5) none) "properties" = some 5 :=
  (definition_spec ({ APISpec.fresh with definition_helpers :=
      [fun _ => [("properties", (0 : Nat)), ("type", 3)]] })
    (fun n => !(n = 0)) "Pet" (some 5) none).2.2.1 5 rfl (by decide)

/-- C8: once a `setup_plugin` call for an identifier succeeds, the identifier
is in the initialized set, and any later `setup_plugin` call for it — under
any import environment whatsoever, so without resolving or running `setup`
again — returns immediately with the state unchanged and no error. -/
theorem setup_plugin_idempotent {V : Type}
    (env env2 : String → Option (PluginMod V)) (s : APISpec V) (p : String)
    (h : (APISpec.setup_plugin env s p).2 = none) :
    listHas (APISpec.setup_plugin env s p).1.plugins p = true ∧
    APISpec.setup_plugin env2 (APISpec.setup_plugin env s p).1 p =
      ((APISpec.setup_plugin env s p).1, none) := by
  have hmem := setup_plugin_success_mem env s p h
  exact ⟨hmem, setup_plugin_mem_noop env2 _ p hmem⟩

/-- Witness for C8: a counting-style plugin (its `setup` is visible in the
state type) set up twice on a fresh registry; the second call, under an
environment that cannot even resolve the identifier, is a pure no-op. -/
theorem setup_plugin_idempotent_witness :
    APISpec.setup_plugin (fun _ => none)
      ((APISpec.setup_plugin (fun _ => some ⟨some (fun s2 => s2)⟩)
        (APISpec.fresh (V := Nat)) "x").1) "x" =
      (((APISpec.setup_plugin (fun _ => some ⟨some (fun s2 => s2)⟩)
        (APISpec.fresh (V := Nat)) "x").1), none) :=
  (setup_plugin_idempotent (fun _ => some ⟨some (fun s2 => s2)⟩)
    (fun _ => none) (APISpec.fresh (V := Nat)) "x" rfl).2

/-- C9: for a not-yet-initialized identifier, `setup_plugin` raises the plugin
error when resolution fails and when the resolved unit has no `setup` entry
point; in both cases the registry is unchanged and the identifier is not
recorded in the initialized set. -/
theorem setup_plugin_failure_spec {V : Type}
    (env : String → Option (PluginMod V)) (s : APISpec V) (p : String)
    (h : listHas s.plugins p = false) :
    (env p = none →
      APISpec.setup_plugin env s p = (s, some (PluginError.importFailed p)) ∧
      listHas (APISpec.setup_plugin env s p).1.plugins p = false) ∧
    (∀ mod, env p = some mod → mod.setup = none →
      APISpec.setup_plugin env s p = (s, some PluginError.noSetupFunction) ∧
      listHas (APISpec.setup_plugin env s p).1.plugins p = false) := by
  constructor
  · intro henv
    have heq : APISpec.setup_plugin env s p =
        (s, some (PluginError.importFailed p)) := by
      unfold APISpec.setup_plugin
      rw [if_neg (by simp [h])]
      simp [henv]
    exact ⟨heq, by rw [heq]; exact h⟩
  · intro mod henv hsu
    have heq : APISpec.setup_plugin env s p =
        (s, some PluginError.noSetupFunction) := by
      unfold APISpec.setup_plugin
      rw [if_neg (by simp [h])]
      simp [henv, hsu]
    exact ⟨heq, by rw [heq]; exact h⟩

/-- Witness for C9: an unresolvable identifier and a unit without `setup`. -/
theorem setup_plugin_failure_spec_witness :
    APISpec.setup_plugin (fun _ => none) (APISpec.fresh (V := Nat))
      "nonexistent.module" =
      (APISpec.fresh (V := Nat),
       some (PluginError.importFailed "nonexistent.module")) ∧
    APISpec.setup_plugin (fun _ => some ⟨none⟩) (APISpec.fresh (V := Nat))
      "nosetup" =
      (APISpec.fresh (V := Nat), some PluginError.noSetupFunction) :=
  ⟨((setup_plugin_failure_spec (fun _ => none) (APISpec.fresh (V := Nat))
      "nonexistent.module" rfl).1 rfl).1,
   ((setup_plugin_failure_spec (fun _ => some ⟨none⟩) (APISpec.fresh (V := Nat))
      "nosetup" rfl).2 ⟨none⟩ rfl rfl).1⟩

/-- C10: `add_path` never mutates the caller-supplied operation dict: the base
entry's operation is a fresh key-corrected dict allocated at construction, and
every helper merge writes only through that fresh reference, so every dict
object that existed before the call — in particular the argument — is intact
afterwards, whether the call returns or raises. -/
theorem add_pathH_frame {V : Type} (helpers : List (HelperH V))
    (hf : ∀ f ∈ helpers, HelperFrame f) (h : Heap V) (p m : Option String)
    (o : Option Nat) (r : Nat) (hr : r < h.length) :
    heapRead (add_pathH helpers h p m o).1 r = heapRead h r := by
  have base : heapFrameInv h (pathObjInit h p m o) := by
    refine ⟨?_, ?_, ?_⟩
    · simp [pathObjInit, heapAlloc]
    · intro i hi
      exact heapRead_append _ hi
    · simp [pathObjInit, heapAlloc]
  have hinv := add_pathH_fold_inv helpers p m o h hf _ base
  have hread := hinv.2.1 r hr
  unfold add_pathH
  split
  · exact hread
  · split
    · exact hread
    · exact hread

theorem pathObjInitHelper_frame :
    HelperFrame (V := Nat)
      (fun hh _ _ oo => pathObjInit hh (some "/pets") (some "get") oo) := by
  intro hh p m o
  refine ⟨?_, ?_, ?_⟩
  · simp [pathObjInit, heapAlloc]
  · intro i hi
    exact heapRead_append _ hi
  · simp [pathObjInit, heapAlloc]

/-- Witness for C10: one contract-honouring helper, a heap holding the
caller's operation dict at reference 0; after `add_pathH` that cell is
untouched. -/
theorem add_pathH_frame_witness :
    heapRead (add_pathH
      [fun hh _ _ oo => pathObjInit hh (some "/pets") (some "get") oo]
      ([[("operation_id", (1 : Nat))]]) (some "/x") none (some 0)).1 0 =
      [("operation_id", (1 : Nat))] := by
  have h := add_pathH_frame
    [fun hh _ _ oo => pathObjInit hh (some "/pets") (some "get") oo]
    (by
      intro f hfm
      rw [List.mem_singleton] at hfm
      rw [hfm]
      exact pathObjInitHelper_frame)
    ([[("operation_id", (1 : Nat))]]) (some "/x") none (some 0) 0 (by decide)
  revert h
  decide

end Smore
